import Mathlib

/-!
Shallow embedding of the LSP "go to definition" benchmark
(`lsp/lsp_benchmark.py` and `lsp/benchmark/daily_runner.py`) together with
proofs about its normalizer, validator, sampler, aggregation and summary
logic.  Python functions are translated into executable Lean definitions;
fallible Python code (code that raises and is caught) is modelled with
`Option`; floating-point latencies are modelled with exact rationals, and
operating-system effects (`Path.resolve`, `which`, the PRNG stream) are
abstracted as explicit function parameters.
-/

namespace LspBench

/-- JSON values as delivered by the JSON-RPC layer (`json.loads`).
Numbers are modelled as integers: the fields the benchmark reads
(`line`, `character`) are LSP integer fields. -/
inductive JVal where
  | null
  | bool (b : Bool)
  | num (n : Int)
  | str (s : String)
  | arr (xs : List JVal)
  | obj (kvs : List (String × JVal))

/-- Dictionary lookup `v[k]`; `none` models both a missing key (`KeyError`)
and subscripting a non-dict (`TypeError`), which the caller catches. -/
def jGet : JVal → String → Option JVal
  | JVal.obj kvs, k => (kvs.find? (fun kv => kv.1 == k)).map (fun kv => kv.2)
  | _, _ => none

/-- Membership test `k in v` for a dict value. -/
def jHas (v : JVal) (k : String) : Bool := (jGet v k).isSome

/-- Python `int(x)`: exact on ints and bools, parses integer-shaped
strings, fails (raises, here `none`) on everything else. -/
def jToInt : JVal → Option Int
  | JVal.num n => some n
  | JVal.bool b => some (if b then 1 else 0)
  | JVal.str s => s.toInt?
  | _ => none

/-- Python `str(x)`.  Only the string case is ever exercised by the
benchmark (URIs); container renderings are irrelevant to every claim. -/
def pyStr : JVal → String
  | JVal.null => "None"
  | JVal.bool b => if b then "True" else "False"
  | JVal.num n => toString n
  | JVal.str s => s
  | JVal.arr _ => "<list>"
  | JVal.obj _ => "<dict>"

/-- `Position` dataclass: 0-based line/character.  `int` fields, so `Int`
(negative values can arrive from a malformed server response). -/
structure Position where
  line : Int
  character : Int
deriving Repr, DecidableEq

/-- `Range` dataclass; the Python field `end` is a Lean keyword, embedded
here as `endPos`. -/
structure Range where
  start : Position
  endPos : Position
deriving Repr, DecidableEq

/-- `Location` dataclass. -/
structure Location where
  uri : String
  range : Range
deriving Repr, DecidableEq

/-- The `try` body of `loc_from` that builds a `Range` from the raw JSON
range object: any missing key or non-int field raises and is caught,
yielding `None`. -/
def rangeFrom (r : JVal) : Option Range := do
  let s ← jGet r "start"
  let e ← jGet r "end"
  let sl ← (jGet s "line").bind jToInt
  let sc ← (jGet s "character").bind jToInt
  let el ← (jGet e "line").bind jToInt
  let ec ← (jGet e "character").bind jToInt
  pure { start := { line := sl, character := sc }, endPos := { line := el, character := ec } }

/-- `loc_from` inside `_parse_definition_result`: accepts a dict shaped as
a `LocationLink` (`targetUri`+`targetRange`, checked first) or a
`Location` (`uri`+`range`); anything else, or a range that fails to
parse, yields `None`. -/
def locFrom (v : JVal) : Option Location :=
  match v with
  | JVal.obj _ =>
      if jHas v "targetUri" && jHas v "targetRange" then
        (rangeFrom ((jGet v "targetRange").getD JVal.null)).map
          (fun rg => { uri := pyStr ((jGet v "targetUri").getD JVal.null), range := rg })
      else if jHas v "uri" && jHas v "range" then
        (rangeFrom ((jGet v "range").getD JVal.null)).map
          (fun rg => { uri := pyStr ((jGet v "uri").getD JVal.null), range := rg })
      else none
  | _ => none

/-- `_parse_definition_result`: `None` → `[]`; a list keeps each item that
`loc_from` accepts; any other value is treated as a single candidate. -/
def parse_definition_result : JVal → List Location
  | JVal.null => []
  | JVal.arr items => items.filterMap locFrom
  | v => (locFrom v).toList

/-- Spec-side description of a well-formed definition item: a dict-like
value carrying `targetUri`+`targetRange` (a `LocationLink`) or
`uri`+`range` (a `Location`) whose range has all four integer
endpoint fields. -/
def specWellFormedItem (v : JVal) : Bool :=
  match v with
  | JVal.obj _ =>
      if jHas v "targetUri" && jHas v "targetRange" then
        (rangeFrom ((jGet v "targetRange").getD JVal.null)).isSome
      else if jHas v "uri" && jHas v "range" then
        (rangeFrom ((jGet v "range").getD JVal.null)).isSome
      else false
  | _ => false

/-- `_uri_to_path`: minimal file-URI decoding. -/
def uri_to_path (uri : String) : String :=
  if uri.startsWith "file:///" then ((uri.drop 8).replace "/" "\\")
  else if uri.startsWith "file://" then uri.drop 7
  else uri

/-- `_looks_like_valid_location`.  `resolves` abstracts whether
`Path.resolve()` succeeds for the decoded path (an operating-system
effect); `repo_root` is the unused second parameter of the source
function. -/
def looks_like_valid_location (resolves : String → Bool) (loc : Location) (_repo_root : String) : Bool :=
  if !(resolves (uri_to_path loc.uri)) then false
  else if decide (loc.range.start.line < 0) || decide (loc.range.start.character < 0) then false
  else if decide (loc.range.endPos.line < 0) || decide (loc.range.endPos.character < 0) then false
  else true

/-- `DefinitionResult` dataclass.  Latencies are wall-clock floats in the
source, modelled with exact rationals; no claim depends on rounding. -/
structure DefinitionResult where
  ok : Bool
  found : Bool
  n_locations : Nat
  latency_ms : Option ℚ
  error : Option String
  raw_result : JVal
  locations : List Location

/-- Outcome of the `textDocument/definition` round trip inside
`LspClient.definition`: either a response whose `result` field is a JSON
value, or an exception (timeout, protocol error, broken pipe) with its
message. -/
inductive ReqOutcome where
  | response (result : JVal)
  | failure (msg : String)

/-- `LspClient.definition`: a successful round trip normalizes the raw
result and reports `ok=True`; any exception is captured into an
`ok=False` result.  `dtMs` is the measured latency, recorded in both
branches. -/
def definition (outcome : ReqOutcome) (dtMs : ℚ) : DefinitionResult :=
  match outcome with
  | ReqOutcome.response result =>
      let locs := parse_definition_result result
      { ok := true, found := !locs.isEmpty, n_locations := locs.length,
        latency_ms := some dtMs, error := none, raw_result := result, locations := locs }
  | ReqOutcome.failure msg =>
      { ok := false, found := false, n_locations := 0,
        latency_ms := some dtMs, error := some msg, raw_result := JVal.null, locations := [] }

/-- What `main` observes for one server in one run: `future.result()`
either returns the server's `DefinitionResult` or raises (e.g. the server
binary could not be spawned, or `initialize` timed out), which lands in
the `except` branch. -/
inductive RunOutcome where
  | result (res : DefinitionResult)
  | exc (msg : String)

/-- One per-server aggregation bucket of `main`. -/
structure Agg where
  ok : Nat
  found : Nat
  valid : Nat
  latencies_ms : List ℚ
  errors : Nat
  timeouts : Nat

/-- The bucket's initial value. -/
def Agg.init : Agg :=
  { ok := 0, found := 0, valid := 0, latencies_ms := [], errors := 0, timeouts := 0 }

/-- `any(l.get("valid") for l in locations_payload)`: the payload's
`valid` flags are `_looks_like_valid_location` applied to each returned
location. -/
def anyValidLoc (resolves : String → Bool) (root : String) (locs : List Location) : Bool :=
  locs.any (fun l => looks_like_valid_location resolves l root)

/-- One iteration of `main`'s result-collection loop folded into the
bucket: the `try` branch bumps `ok`/`found`/`valid` and appends the
latency only when `ok` and a latency is present; the `except` branch
bumps only `errors`. -/
def aggStep (resolves : String → Bool) (root : String) (a : Agg) (o : RunOutcome) : Agg :=
  match o with
  | RunOutcome.result res =>
      { a with
        ok := a.ok + (if res.ok then 1 else 0),
        found := a.found + (if res.found then 1 else 0),
        valid := a.valid + (if anyValidLoc resolves root res.locations then 1 else 0),
        latencies_ms :=
          if res.ok && res.latency_ms.isSome then a.latencies_ms ++ [res.latency_ms.getD 0]
          else a.latencies_ms }
  | RunOutcome.exc _ => { a with errors := a.errors + 1 }

/-- The bucket after all of one server's run outcomes have been folded. -/
def aggRun (resolves : String → Bool) (root : String) (outs : List RunOutcome) : Agg :=
  outs.foldl (aggStep resolves root) Agg.init

/-- Spec-side view of the recorded latency samples: exactly the latencies
of outcomes whose `DefinitionResult` has `ok=True`. -/
def okLatencies (outs : List RunOutcome) : List ℚ :=
  outs.filterMap (fun o =>
    match o with
    | RunOutcome.result res =>
        if res.ok && res.latency_ms.isSome then some (res.latency_ms.getD 0) else none
    | RunOutcome.exc _ => none)

/-- Outcome predicates mirroring the three counter increments and the
`except` branch of the collection loop. -/
def isOkResult : RunOutcome → Bool
  | RunOutcome.result res => res.ok
  | RunOutcome.exc _ => false

/-- Predicate for the `found` counter increment. -/
def isFoundResult : RunOutcome → Bool
  | RunOutcome.result res => res.found
  | RunOutcome.exc _ => false

/-- Predicate for the `valid` counter increment. -/
def isValidResult (resolves : String → Bool) (root : String) : RunOutcome → Bool
  | RunOutcome.result res => anyValidLoc resolves root res.locations
  | RunOutcome.exc _ => false

/-- Predicate for the `errors` counter increment. -/
def isExcOutcome : RunOutcome → Bool
  | RunOutcome.result _ => false
  | RunOutcome.exc _ => true

/-- Python `min(xs)` (None on empty via the caller's guard). -/
def listMin : List ℚ → Option ℚ
  | [] => none
  | x :: xs => some (xs.foldl Min.min x)

/-- Python `max(xs)`. -/
def listMax : List ℚ → Option ℚ
  | [] => none
  | x :: xs => some (xs.foldl Max.max x)

/-- The summary's `latency_ms` block. -/
structure LatencyStats where
  count : Nat
  p50 : Option ℚ
  p95 : Option ℚ
  min : Option ℚ
  max : Option ℚ
  mean : Option ℚ
deriving Repr, DecidableEq

/-- The latency block computed at the end of `main`: `sorted(lats)` is
embedded as an insertion sort (Python's `sorted` is semantically the
sorted permutation); `p50 = lats_sorted[len // 2]`, and
`p95 = lats_sorted[int(len * 0.95)]` — for every list length the float
product `len * 0.95` truncates to `⌊len * 95 / 100⌋` (the exact
fractional part is a multiple of 1/20, far above double rounding error,
and `int` truncates any upward rounding at integer points back down). -/
def latencySummary (lats : List ℚ) : LatencyStats :=
  let lats_sorted := List.insertionSort (fun a b => a ≤ b) lats
  { count := lats.length,
    p50 := lats_sorted[lats_sorted.length / 2]?,
    p95 := lats_sorted[(lats_sorted.length * 95) / 100]?,
    min := listMin lats,
    max := listMax lats,
    mean := if lats.isEmpty then none else some (lats.sum / (lats.length : ℚ)) }

/-- `_pct` in `main`: `100.0 * n / runs if runs else 0.0`. -/
def pct (runs : Nat) (n : Nat) : ℚ :=
  if runs = 0 then 0 else 100 * (n : ℚ) / (runs : ℚ)

/-- One server's entry in `report["summary"]`. -/
structure ServerSummary where
  ok : Nat
  ok_pct : ℚ
  found : Nat
  found_pct : ℚ
  valid : Nat
  valid_pct : ℚ
  errors : Nat
  latency_ms : LatencyStats

/-- The summary block built from a server's bucket at the end of `main`. -/
def summarize (runs : Nat) (a : Agg) : ServerSummary :=
  { ok := a.ok, ok_pct := pct runs a.ok,
    found := a.found, found_pct := pct runs a.found,
    valid := a.valid, valid_pct := pct runs a.valid,
    errors := a.errors,
    latency_ms := latencySummary a.latencies_ms }

/-- A definition request that times out on the wire: `request` raises
`TimeoutError`, which `definition` captures into an `ok=False` result
(it does not escape to `main`'s `except` branch). -/
def timeoutRunOutcome : RunOutcome :=
  RunOutcome.result
    (definition (ReqOutcome.failure "timeout waiting for response to textDocument/definition") 10000)

/-- The summary for a server whose definition request timed out on each
of its 3 runs. -/
def allTimeoutsSummary : ServerSummary :=
  summarize 3 (aggRun (fun _ => true) "/repo" [timeoutRunOutcome, timeoutRunOutcome, timeoutRunOutcome])

/-! ### Daily runner (`lsp/benchmark/daily_runner.py`)

Availability probing and the per-package benchmark dispatch. -/

/-- `TYPE_CHECKER_COMMANDS`. -/
def TYPE_CHECKER_COMMANDS : List (String × String) :=
  [("pyright", "pyright-langserver --stdio"),
   ("pyrefly", "pyrefly lsp --indexing-mode none"),
   ("ty", "ty server"),
   ("zuban", "zubanls")]

/-- Dict lookup `TYPE_CHECKER_COMMANDS[checker]` guarded by the
`checker not in TYPE_CHECKER_COMMANDS` test. -/
def lookupCommand (checker : String) : Option String :=
  (TYPE_CHECKER_COMMANDS.find? (fun kv => kv.1 == checker)).map (fun kv => kv.2)

/-- `cmd.split()[0]`: first whitespace-separated word. -/
def firstWord (s : String) : String :=
  ((s.splitOn " ").filter (fun w => !w.isEmpty)).headD ""

/-- `find_type_checker_command`: `whichOk` abstracts the
`which`/`where` subprocess probe (returncode 0 means the executable
resolves). -/
def find_type_checker_command (whichOk : String → Bool) (checker : String) : Option String :=
  match lookupCommand checker with
  | none => none
  | some cmd => if whichOk (firstWord cmd) then some cmd else none

/-- The fields of a `CheckerMetrics` record that the availability logic
touches. -/
structure CheckerMetrics where
  ok : Bool
  error : Option String
  latency_ms : Option LatencyStats
deriving Repr, DecidableEq

/-- The record written for a checker whose command is not found:
`{"ok": False, "error": "Type checker not installed", "latency_ms": None}`. -/
def unavailable_metrics : CheckerMetrics :=
  { ok := false, error := some "Type checker not installed", latency_ms := none }

/-- `available_checkers`: the `(checker, cmd)` pairs whose command
resolves, in configuration order. -/
def available_checkers (whichOk : String → Bool) (type_checkers : List String) :
    List (String × String) :=
  type_checkers.filterMap (fun c =>
    (find_type_checker_command whichOk c).map (fun cmd => (c, cmd)))

/-- The unavailable records emitted by the same loop. -/
def unavailable_records (whichOk : String → Bool) (type_checkers : List String) :
    List (String × CheckerMetrics) :=
  type_checkers.filterMap (fun c =>
    if (find_type_checker_command whichOk c).isNone then some (c, unavailable_metrics) else none)

/-- `run_benchmark_for_package`: unavailable checkers are recorded
up-front and only the available ones are handed to
`_run_checkers_together` (abstracted as `runTogether`, the single joint
benchmark invocation); with no available checker the early return skips
the benchmark entirely. -/
def run_benchmark_for_package (whichOk : String → Bool)
    (runTogether : List (String × String) → List (String × CheckerMetrics))
    (type_checkers : List String) : List (String × CheckerMetrics) :=
  let avail := available_checkers whichOk type_checkers
  if avail.isEmpty then unavailable_records whichOk type_checkers
  else unavailable_records whichOk type_checkers ++ runTogether avail

/-! ### Occurrence sampler

AST-based occurrence collection (`_collect_ast_occurrences`), the
identifier regex, and `pick_random_identifier_case` /
`pick_random_case`.  The Python `ast` node shapes the visitor touches
(`Name`, `Attribute`, `Call`, `Import`, `ImportFrom`, expression
statements) are embedded directly; every node carries the `lineno`
(1-based) and `col_offset` (0-based) that `ast.parse` assigns. -/

mutual
/-- The expression nodes the visitor distinguishes; `constant` stands for
every other expression node (no occurrence is collected from it). -/
inductive PyExpr where
  | name (id : String) (lineno : Nat) (col_offset : Nat)
  | attributeExpr (value : PyExpr) (attr : String) (lineno : Nat) (col_offset : Nat)
  | call (func : PyExpr) (args : PyExprList) (lineno : Nat) (col_offset : Nat)
  | constant (lineno : Nat) (col_offset : Nat)

/-- Argument lists of a call (a mutual list keeps recursion structural). -/
inductive PyExprList where
  | nil
  | cons (head : PyExpr) (tail : PyExprList)
end

/-- The statements relevant to the collector: import statements feed the
imported-name sets, expression statements carry visited expressions.
Aliases are `(name, asname)` pairs as in `ast.alias`. -/
inductive PyStmt where
  | importStmt (aliases : List (String × Option String))
  | importFrom (aliases : List (String × Option String))
  | exprStmt (e : PyExpr)

/-- `alias.name.split(".")[0]`. -/
def headDot (s : String) : String := (s.splitOn ".").headD s

/-- The `imported_names` set: `import` aliases (asname or first dotted
component) plus `from … import` aliases (asname or name, `*` skipped). -/
def importedNames (m : List PyStmt) : List String :=
  m.flatMap (fun s =>
    match s with
    | PyStmt.importStmt aliases => aliases.map (fun a => a.2.getD (headDot a.1))
    | PyStmt.importFrom aliases =>
        aliases.filterMap (fun a => if a.1 == "*" then none else some (a.2.getD a.1))
    | PyStmt.exprStmt _ => [])

/-- The `imported_modules` set: only plain `import` aliases. -/
def importedModules (m : List PyStmt) : List String :=
  m.flatMap (fun s =>
    match s with
    | PyStmt.importStmt aliases => aliases.map (fun a => a.2.getD (headDot a.1))
    | _ => [])

/-- The `banned` exclusion set of `_collect_ast_occurrences` (the regex
fallback repeats the same literal set). -/
def bannedIdentifiers : List String :=
  ["True", "False", "None", "self", "cls", "int", "str", "float", "bool",
   "list", "dict", "set", "tuple", "object"]

/-- `_AstOccurrence` dataclass. -/
structure AstOccurrence where
  line_1b : Nat
  col_0b : Nat
  token : String
  kind : String
deriving Repr, DecidableEq

/-- `isinstance(node.value, ast.Name) and node.value.id in imported_modules`. -/
def isImportedModuleName (modules : List String) : PyExpr → Bool
  | PyExpr.name id _ _ => modules.contains id
  | _ => false

/-- The occurrence `visit_Call` appends for the callee before its
generic visit: a `Name` callee yields `call`/`imported_call`, an
`Attribute` callee yields `attr_call`/`imported_attr_call` (positioned
at the attribute node, i.e. at its base). -/
def callOcc (imported modules : List String) : PyExpr → List AstOccurrence
  | PyExpr.name id ln col =>
      if bannedIdentifiers.contains id then []
      else [{ line_1b := ln, col_0b := col, token := id,
              kind := if imported.contains id then "imported_call" else "call" }]
  | PyExpr.attributeExpr v attr ln col =>
      if bannedIdentifiers.contains attr then []
      else [{ line_1b := ln, col_0b := col, token := attr,
              kind := if isImportedModuleName modules v then "imported_attr_call" else "attr_call" }]
  | _ => []

mutual
/-- The visitor `V` in preorder: `visit_Name` appends a name occurrence;
`visit_Attribute` appends an attribute occurrence (positioned at the
base) then recurses into the base; `visit_Call` appends the callee
occurrence then generic-visits the callee and the arguments. -/
def visitExpr (imported modules : List String) : PyExpr → List AstOccurrence
  | PyExpr.name id ln col =>
      if bannedIdentifiers.contains id then []
      else [{ line_1b := ln, col_0b := col, token := id,
              kind := if imported.contains id then "imported_name" else "name" }]
  | PyExpr.attributeExpr v attr ln col =>
      (if bannedIdentifiers.contains attr then []
       else [{ line_1b := ln, col_0b := col, token := attr,
               kind := if isImportedModuleName modules v then "imported_attr" else "attr" }])
      ++ visitExpr imported modules v
  | PyExpr.call f args _ _ =>
      callOcc imported modules f ++ visitExpr imported modules f ++ visitExprList imported modules args
  | PyExpr.constant _ _ => []

/-- Generic visit of a call's argument list, left to right. -/
def visitExprList (imported modules : List String) : PyExprList → List AstOccurrence
  | PyExprList.nil => []
  | PyExprList.cons e rest => visitExpr imported modules e ++ visitExprList imported modules rest
end

/-- `_collect_ast_occurrences` on a parsed module: the import sets are
collected over the whole tree first, then the visitor walks the
statements in order (import statements contain no visited expression
nodes). -/
def collect_ast_occurrences (m : List PyStmt) : List AstOccurrence :=
  let imported := importedNames m
  let modules := importedModules m
  m.flatMap (fun s =>
    match s with
    | PyStmt.exprStmt e => visitExpr imported modules e
    | _ => [])

/-- `[A-Za-z_]`. -/
def isIdentStart (c : Char) : Bool := c.isAlpha || c == '_'

/-- `[A-Za-z0-9_]`, which for ASCII text is also the regex word class
used by the `\b` boundaries. -/
def isIdentChar (c : Char) : Bool := c.isAlphanum || c == '_'

/-- Word-character test used by the boundary check. -/
def isWordCharOpt (c : Char) : Bool := c.isAlphanum || c == '_'

/-- `\b` holds before position `i` and an identifier can start there. -/
def identMatchAt (s : List Char) (i : Nat) : Bool :=
  (match s[i]? with | some c => isIdentStart c | none => false)
  && (i == 0 || !(match s[i - 1]? with | some c => isWordCharOpt c | none => false))

/-- `_IDENTIFIER_RE.search(s, pos)`: the first identifier match starting
at or after `pos`, as `(start, matched token)`; the token is the maximal
identifier run from its start. -/
def identSearchFrom (s : List Char) (pos : Nat) : Option (Nat × String) :=
  match ((List.range s.length).filter (fun i => decide (pos ≤ i) && identMatchAt s i)).head? with
  | none => none
  | some i => some (i, String.mk ((s.drop i).takeWhile isIdentChar))

/-- `_IDENTIFIER_RE.finditer(line)`: all matches, left to right (each
match start satisfies the boundary test, and positions inside a match
fail it, so the matches are exactly the boundary starts). -/
def identMatchesAll (s : List Char) : List (Nat × String) :=
  (List.range s.length).filterMap (fun i =>
    if identMatchAt s i then some (i, String.mk ((s.drop i).takeWhile isIdentChar)) else none)

/-- `_token_from_line_at`: extracts the identifier at exactly the caret
column, if any (the search starts at the caret, so the covering test of
the source collapses to "the match starts at the caret"). -/
def token_from_line_at (lines : List (List Char)) (line_1b : Nat) (col_0b : Nat) : Option String :=
  if line_1b = 0 then none
  else
    match lines[line_1b - 1]? with
    | none => none
    | some s =>
        if s.length ≤ col_0b then none
        else
          match identSearchFrom s col_0b with
          | none => none
          | some (st, tok) => if st = col_0b then some tok else none

/-- `_safe_line`. -/
def safe_line (lines : List (List Char)) (idx0 : Nat) : String :=
  match lines[idx0]? with
  | some s => String.mk s
  | none => ""

/-- `t` is an initial segment of `s`. -/
def startsWithChars : List Char → List Char → Bool
  | [], _ => true
  | _ :: _, [] => false
  | a :: as, b :: bs => a == b && startsWithChars as bs

/-- `haystack.find(needle)`: index of the first substring occurrence. -/
def strFind (s : List Char) (t : List Char) : Option Nat :=
  ((List.range (s.length + 1)).filter (fun i => startsWithChars t (s.drop i))).head?

/-- A candidate tuple `(line0, col0, tok, kind)` of
`pick_random_identifier_case`. -/
structure Candidate where
  line0 : Nat
  col0 : Nat
  tok : String
  kind : String
deriving Repr, DecidableEq

/-- The AST-candidate loop of `pick_random_identifier_case`: drop
occurrences outside the line table, patch the column to the first
occurrence of the token text on the raw line, then re-extract the token
at that column (falling back to the AST token). -/
def buildCandidates (lines : List (List Char)) (astOcc : List AstOccurrence) : List Candidate :=
  astOcc.filterMap (fun o =>
    if o.line_1b = 0 then none
    else
      match lines[o.line_1b - 1]? with
      | none => none
      | some line =>
          let col0 :=
            if o.token ≠ "" then
              match strFind line o.token.toList with
              | some idx => idx
              | none => o.col_0b
            else o.col_0b
          let tok := (token_from_line_at lines o.line_1b col0).getD o.token
          if tok = "" then none
          else some { line0 := o.line_1b - 1, col0 := col0, tok := tok, kind := o.kind })

/-- The regex fallback loop: every identifier token on every line, minus
the literal exclusion set, tagged `regex`. -/
def regexFallback (lines : List (List Char)) : List Candidate :=
  lines.enum.flatMap (fun p =>
    (identMatchesAll p.2).filterMap (fun m =>
      if bannedIdentifiers.contains m.2 then none
      else some { line0 := p.1, col0 := m.1, tok := m.2, kind := "regex" }))

/-- The candidate set of a file: AST candidates, else the regex fallback
(also used when `ast.parse` raised, i.e. `parsed = none`). -/
def caseCandidates (lines : List (List Char)) (parsed : Option (List PyStmt)) : List Candidate :=
  let astOcc :=
    match parsed with
    | some m => collect_ast_occurrences m
    | none => []
  let candidates := buildCandidates lines astOcc
  if candidates.isEmpty then regexFallback lines else candidates

/-- `preferred_kinds`. -/
def preferredKinds : List String :=
  ["imported_name", "imported_attr", "imported_call", "imported_attr_call"]

/-- `pool = preferred if preferred else candidates`. -/
def pickPool (candidates : List Candidate) : List Candidate :=
  let preferred := candidates.filter (fun c => preferredKinds.contains c.kind)
  if preferred.isEmpty then candidates else preferred

/-- `BenchmarkCase` dataclass. -/
structure BenchmarkCase where
  file_path : String
  uri : String
  position : Position
  token : String
  line_text : String
  kind : String
deriving Repr, DecidableEq

/-- `pick_random_identifier_case`: `none` models the "no identifier
tokens found" `RuntimeError`; `pathToUri` abstracts
`_path_to_uri` (`Path.resolve().as_uri()`, an OS effect); `choice`
selects `rng.choice(pool)` as an index into the pool (`rng.choice` is a
deterministic function of the PRNG state that can yield any index). -/
def pick_random_identifier_case (file_path : String) (pathToUri : String → String)
    (lines : List (List Char)) (parsed : Option (List PyStmt)) (choice : Nat) :
    Option BenchmarkCase :=
  let candidates := caseCandidates lines parsed
  if candidates.isEmpty then none
  else
    let pool := pickPool candidates
    (pool[choice % pool.length]?).map (fun c =>
      { file_path := file_path, uri := pathToUri file_path,
        position := { line := (c.line0 : Int), character := (c.col0 : Int) },
        token := c.tok, line_text := safe_line lines c.line0, kind := c.kind })

/-- One discovered source file: its path, line table and parse result
(`none` when `ast.parse` raises).  The list of entries is the
enumeration produced by `root.rglob("*.py")` after the excluded-folder
filter, in enumeration order. -/
structure FileEntry where
  path : String
  lines : List (List Char)
  parsed : Option (List PyStmt)

/-- `pick_random_python_file`: `rng.choice(candidates)` on the discovered
files, `none` modelling the "No .py files found" `RuntimeError`. -/
def pick_random_python_file (tree : List FileEntry) (draw : Nat) : Option FileEntry :=
  tree[draw % tree.length]?

/-- The retry loop of `pick_random_case`: `rng` is the PRNG's draw
stream, `t` the number of draws consumed so far.  Picking a file
consumes one draw; a successful case pick consumes one more; a file that
yields nothing usable is retried (up to 50 files), and an empty tree
fails immediately.  Returns the case and the advanced draw counter. -/
def pickCaseAux (pathToUri : String → String) (tree : List FileEntry) (rng : Nat → Nat) :
    Nat → Nat → Option (BenchmarkCase × Nat)
  | 0, _ => none
  | fuel + 1, t =>
      match pick_random_python_file tree (rng t) with
      | none => none
      | some entry =>
          match pick_random_identifier_case entry.path pathToUri entry.lines entry.parsed (rng (t + 1)) with
          | some c => some (c, t + 2)
          | none => pickCaseAux pathToUri tree rng fuel (t + 1)

/-- `pick_random_case` with `max_file_tries = 50`. -/
def pick_random_case (pathToUri : String → String) (tree : List FileEntry) (rng : Nat → Nat)
    (t : Nat) : Option (BenchmarkCase × Nat) :=
  pickCaseAux pathToUri tree rng 50 t

/-- The sequence of cases selected by `main`'s run loop (a failed pick
raises and aborts the process, recorded as a terminal `none`). -/
def benchmarkCases (pathToUri : String → String) (tree : List FileEntry) (rng : Nat → Nat) :
    Nat → Nat → List (Option BenchmarkCase)
  | 0, _ => []
  | runs + 1, t =>
      match pick_random_case pathToUri tree rng t with
      | some (c, t2) => some c :: benchmarkCases pathToUri tree rng runs t2
      | none => [none]

/-- The single line `print(self.s)` as a line table. -/
def c3Lines : List (List Char) := ["print(self.s)".toList]

/-- The parsed module of `print(self.s)`: an expression statement whose
call has callee `Name "print"` (col 0) and one `Attribute` argument
`self.s` (node at col 6, the base `Name "self"` also at col 6). -/
def c3Module : List PyStmt :=
  [PyStmt.exprStmt (PyExpr.call (PyExpr.name "print" 1 0)
    (PyExprList.cons (PyExpr.attributeExpr (PyExpr.name "self" 1 6) "s" 1 6) PyExprList.nil) 1 0)]

/-- Outcomes used to exercise the latency-summary theorem at a concrete
input: one successful empty response with a 7 ms round trip. -/
def c6WitnessOuts : List RunOutcome :=
  [RunOutcome.result (definition (ReqOutcome.response JVal.null) 7)]

/-- Outcomes used to exercise the counter-monotonicity theorem at a
concrete input: one successful empty response and one worker exception. -/
def c10WitnessOuts : List RunOutcome :=
  [RunOutcome.result (definition (ReqOutcome.response JVal.null) 2), RunOutcome.exc "spawn failed"]

/-! ### Theorems -/

/-- The length of a `filterMap` counts the elements on which the
function succeeds. -/
theorem length_filterMap_eq_countP {α β : Type} (f : α → Option β) (l : List α) :
    (l.filterMap f).length = l.countP (fun a => (f a).isSome) := by
  induction l with
  | nil => rfl
  | cons a t ih =>
      cases h : f a <;> simp [List.filterMap_cons, h, List.countP_cons, ih]

/-- `loc_from` succeeds exactly on well-formed items. -/
theorem locFrom_isSome_eq (v : JVal) : (locFrom v).isSome = specWellFormedItem v := by
  cases v with
  | obj kvs =>
      simp only [locFrom, specWellFormedItem]
      split_ifs
      · cases rangeFrom ((jGet (JVal.obj kvs) "targetRange").getD JVal.null) <;> rfl
      · cases rangeFrom ((jGet (JVal.obj kvs) "range").getD JVal.null) <;> rfl
      · rfl
  | null => rfl
  | bool b => rfl
  | num n => rfl
  | str s => rfl
  | arr xs => rfl

/-- C4: the normalizer maps `null` to the empty list, a single object to
a list whose length is 1 exactly when the object is a well-formed
`Location`/`LocationLink`, and an array to a list whose length counts
its well-formed items — malformed items are skipped, and the function is
total (nothing raises). -/
theorem c4_normalizer_counts_well_formed :
    parse_definition_result JVal.null = []
    ∧ (∀ kvs : List (String × JVal),
        (parse_definition_result (JVal.obj kvs)).length
          = if specWellFormedItem (JVal.obj kvs) then 1 else 0)
    ∧ (∀ items : List JVal,
        (parse_definition_result (JVal.arr items)).length
          = items.countP specWellFormedItem) := by
  refine ⟨rfl, ?_, ?_⟩
  · intro kvs
    have h := locFrom_isSome_eq (JVal.obj kvs)
    cases hl : locFrom (JVal.obj kvs) <;> rw [hl] at h <;>
      simp [parse_definition_result, hl, ← h]
  · intro items
    rw [show parse_definition_result (JVal.arr items) = items.filterMap locFrom from rfl]
    rw [length_filterMap_eq_countP]
    exact List.countP_congr (fun a _ => by rw [locFrom_isSome_eq a])

/-- C5: the validator accepts exactly when the decoded URI resolves and
all four range coordinates are non-negative, and its verdict does not
depend on the benchmarked root at all. -/
theorem c5_validator_characterization (resolves : String → Bool) (loc : Location) (root : String) :
    (looks_like_valid_location resolves loc root = true ↔
      (resolves (uri_to_path loc.uri) = true
        ∧ 0 ≤ loc.range.start.line ∧ 0 ≤ loc.range.start.character
        ∧ 0 ≤ loc.range.endPos.line ∧ 0 ≤ loc.range.endPos.character))
    ∧ (∀ root2 : String,
        looks_like_valid_location resolves loc root = looks_like_valid_location resolves loc root2) := by
  constructor
  · constructor
    · intro hv
      unfold looks_like_valid_location at hv
      split_ifs at hv with h1 h2 h3
      have hr : resolves (uri_to_path loc.uri) = true := by
        revert h1; cases resolves (uri_to_path loc.uri) <;> simp
      simp only [Bool.or_eq_true, decide_eq_true_eq, not_or] at h2 h3
      exact ⟨hr, by omega, by omega, by omega, by omega⟩
    · rintro ⟨h1, ha, hb, hc, hd⟩
      unfold looks_like_valid_location
      have e1 : decide (loc.range.start.line < 0) = false := by
        simp only [decide_eq_false_iff_not]; omega
      have e2 : decide (loc.range.start.character < 0) = false := by
        simp only [decide_eq_false_iff_not]; omega
      have e3 : decide (loc.range.endPos.line < 0) = false := by
        simp only [decide_eq_false_iff_not]; omega
      have e4 : decide (loc.range.endPos.character < 0) = false := by
        simp only [decide_eq_false_iff_not]; omega
      simp [h1, e1, e2, e3, e4]
  · intro root2; rfl

/-- The collection loop, fully characterised: each bucket counter counts
the outcomes satisfying its predicate, the latency list collects exactly
the `ok` samples in order, and `timeouts` is never incremented. -/
theorem foldl_aggStep_spec (resolves : String → Bool) (root : String)
    (outs : List RunOutcome) (a : Agg) :
    (outs.foldl (aggStep resolves root) a).ok = a.ok + outs.countP isOkResult
    ∧ (outs.foldl (aggStep resolves root) a).found = a.found + outs.countP isFoundResult
    ∧ (outs.foldl (aggStep resolves root) a).valid
        = a.valid + outs.countP (isValidResult resolves root)
    ∧ (outs.foldl (aggStep resolves root) a).errors = a.errors + outs.countP isExcOutcome
    ∧ (outs.foldl (aggStep resolves root) a).latencies_ms = a.latencies_ms ++ okLatencies outs
    ∧ (outs.foldl (aggStep resolves root) a).timeouts = a.timeouts := by
  induction outs generalizing a with
  | nil => exact ⟨rfl, rfl, rfl, rfl, by simp [okLatencies], rfl⟩
  | cons o rest ih =>
      obtain ⟨i1, i2, i3, i4, i5, i6⟩ := ih (aggStep resolves root a o)
      refine ⟨?_, ?_, ?_, ?_, ?_, ?_⟩
      · rw [List.foldl_cons, i1]
        cases o with
        | result res =>
            cases hb : res.ok <;>
              simp [aggStep, isOkResult, List.countP_cons, hb] <;> omega
        | exc m => simp [aggStep, isOkResult, List.countP_cons]
      · rw [List.foldl_cons, i2]
        cases o with
        | result res =>
            cases hb : res.found <;>
              simp [aggStep, isFoundResult, List.countP_cons, hb] <;> omega
        | exc m => simp [aggStep, isFoundResult, List.countP_cons]
      · rw [List.foldl_cons, i3]
        cases o with
        | result res =>
            cases hb : anyValidLoc resolves root res.locations <;>
              simp [aggStep, isValidResult, List.countP_cons, hb] <;> omega
        | exc m => simp [aggStep, isValidResult, List.countP_cons]
      · rw [List.foldl_cons, i4]
        cases o with
        | result res => simp [aggStep, isExcOutcome, List.countP_cons]
        | exc m => simp [aggStep, isExcOutcome, List.countP_cons]; omega
      · rw [List.foldl_cons, i5]
        cases o with
        | result res =>
            by_cases hc : res.ok = true ∧ res.latency_ms.isSome = true <;>
              simp [aggStep, okLatencies, List.filterMap_cons, Bool.and_eq_true, hc]
        | exc m => simp [aggStep, okLatencies, List.filterMap_cons]
      · rw [List.foldl_cons, i6]
        cases o with
        | result res => simp [aggStep]
        | exc m => simp [aggStep]

/-- `aggRun` field characterisation, from the empty bucket. -/
theorem aggRun_spec (resolves : String → Bool) (root : String) (outs : List RunOutcome) :
    (aggRun resolves root outs).ok = outs.countP isOkResult
    ∧ (aggRun resolves root outs).found = outs.countP isFoundResult
    ∧ (aggRun resolves root outs).valid = outs.countP (isValidResult resolves root)
    ∧ (aggRun resolves root outs).errors = outs.countP isExcOutcome
    ∧ (aggRun resolves root outs).latencies_ms = okLatencies outs := by
  obtain ⟨h1, h2, h3, h4, h5, -⟩ := foldl_aggStep_spec resolves root outs Agg.init
  exact ⟨by simpa [Agg.init] using h1, by simpa [Agg.init] using h2,
    by simpa [Agg.init] using h3, by simpa [Agg.init] using h4,
    by simpa [Agg.init] using h5⟩

/-- Monotone comparison of counts of two predicates. -/
theorem countP_le_countP_of_imp {α : Type} (p q : α → Bool) (l : List α)
    (h : ∀ a ∈ l, p a = true → q a = true) : l.countP p ≤ l.countP q := by
  induction l with
  | nil => simp
  | cons a t ih =>
      simp only [List.countP_cons]
      have ht := ih (fun x hx => h x (List.mem_cons_of_mem a hx))
      by_cases hp : p a = true
      · rw [if_pos hp, if_pos (h a (List.mem_cons_self a t) hp)]; omega
      · rw [if_neg hp]
        by_cases hq : q a = true
        · rw [if_pos hq]; omega
        · rw [if_neg hq]; omega

/-- C1 (code evaluated at the failing input): a server whose definition
request times out on each of its 3 runs ends with an empty latency list
(`latency_ms.count = 0`) but also `errors = 0`, because the timeout is
captured inside `definition` as an `ok=False` result and never reaches
the `except` branch that increments `errors` — the summary does not
report `errors == runs` as the spec (and the source's own `--timeout`
help text and `run_one_server` docstring) require. -/
theorem c1_all_timeouts_latency_empty_errors_zero :
    allTimeoutsSummary.latency_ms.count = 0
    ∧ allTimeoutsSummary.errors = 0
    ∧ (aggRun (fun _ => true) "/repo"
        [timeoutRunOutcome, timeoutRunOutcome, timeoutRunOutcome]).latencies_ms = [] :=
  ⟨rfl, rfl, rfl⟩

/-- C6: the summary's latency block is computed over exactly the `ok`
samples — the recorded list equals `okLatencies`, `count`/`min`/`max`/
`mean` are taken over it, and against any sorted permutation of the
samples `p50`/`p95` are the entries at the truncated indices
`⌊len*0.50⌋` and `⌊len*0.95⌋` (no interpolation). -/
theorem c6_latency_stats_over_ok_samples (resolves : String → Bool) (root : String)
    (outs : List RunOutcome) :
    (aggRun resolves root outs).latencies_ms = okLatencies outs
    ∧ (latencySummary (aggRun resolves root outs).latencies_ms).count
        = (okLatencies outs).length
    ∧ (latencySummary (aggRun resolves root outs).latencies_ms).min
        = listMin (okLatencies outs)
    ∧ (latencySummary (aggRun resolves root outs).latencies_ms).max
        = listMax (okLatencies outs)
    ∧ (latencySummary (aggRun resolves root outs).latencies_ms).mean
        = (if (okLatencies outs).isEmpty then none
           else some ((okLatencies outs).sum / ((okLatencies outs).length : ℚ)))
    ∧ (∀ sortedLats : List ℚ,
        (okLatencies outs).Perm sortedLats → sortedLats.Sorted (fun a b => a ≤ b) →
        (latencySummary (aggRun resolves root outs).latencies_ms).p50
            = sortedLats[(sortedLats.length * 50) / 100]?
        ∧ (latencySummary (aggRun resolves root outs).latencies_ms).p95
            = sortedLats[(sortedLats.length * 95) / 100]?) := by
  have hl : (aggRun resolves root outs).latencies_ms = okLatencies outs :=
    (aggRun_spec resolves root outs).2.2.2.2
  rw [hl]
  refine ⟨rfl, rfl, rfl, rfl, rfl, ?_⟩
  intro sortedLats hperm hsort
  have hs_eq : List.insertionSort (fun a b => a ≤ b) (okLatencies outs) = sortedLats := by
    refine List.eq_of_perm_of_sorted ?_ ?_ hsort
    · exact (List.perm_insertionSort _ _).trans hperm
    · exact List.sorted_insertionSort _ _
  constructor
  · show (List.insertionSort (fun a b => a ≤ b) (okLatencies outs))[
        (List.insertionSort (fun a b => a ≤ b) (okLatencies outs)).length / 2]?
      = sortedLats[(sortedLats.length * 50) / 100]?
    rw [hs_eq]
    congr 1
    omega
  · show (List.insertionSort (fun a b => a ≤ b) (okLatencies outs))[
        ((List.insertionSort (fun a b => a ≤ b) (okLatencies outs)).length * 95) / 100]?
      = sortedLats[(sortedLats.length * 95) / 100]?
    rw [hs_eq]

/-- `_pct` characterisation and bounds for a count that cannot exceed
the run count. -/
theorem pct_spec (runs n : Nat) (h1 : 1 ≤ runs) (h2 : n ≤ runs) :
    pct runs n = 100 * (n : ℚ) / (runs : ℚ) ∧ 0 ≤ pct runs n ∧ pct runs n ≤ 100 := by
  have hr0 : runs ≠ 0 := by omega
  have hrpos : (0 : ℚ) < (runs : ℚ) := by exact_mod_cast Nat.pos_of_ne_zero hr0
  unfold pct
  rw [if_neg hr0]
  refine ⟨rfl, by positivity, ?_⟩
  rw [div_le_iff₀ hrpos]
  have hn : (n : ℚ) ≤ (runs : ℚ) := by exact_mod_cast h2
  nlinarith

/-- C7: `ok_pct`, `found_pct` and `valid_pct` each equal
`100 * count / runs` and lie within `[0, 100]`, given that the server
produced one outcome per run. -/
theorem c7_percentages_bounds (resolves : String → Bool) (root : String)
    (outs : List RunOutcome) (runs : Nat) (hlen : outs.length = runs) (hruns : 1 ≤ runs) :
    ((summarize runs (aggRun resolves root outs)).ok_pct
        = 100 * ((aggRun resolves root outs).ok : ℚ) / (runs : ℚ)
      ∧ 0 ≤ (summarize runs (aggRun resolves root outs)).ok_pct
      ∧ (summarize runs (aggRun resolves root outs)).ok_pct ≤ 100)
    ∧ ((summarize runs (aggRun resolves root outs)).found_pct
        = 100 * ((aggRun resolves root outs).found : ℚ) / (runs : ℚ)
      ∧ 0 ≤ (summarize runs (aggRun resolves root outs)).found_pct
      ∧ (summarize runs (aggRun resolves root outs)).found_pct ≤ 100)
    ∧ ((summarize runs (aggRun resolves root outs)).valid_pct
        = 100 * ((aggRun resolves root outs).valid : ℚ) / (runs : ℚ)
      ∧ 0 ≤ (summarize runs (aggRun resolves root outs)).valid_pct
      ∧ (summarize runs (aggRun resolves root outs)).valid_pct ≤ 100) := by
  obtain ⟨hok, hfound, hvalid, -, -⟩ := aggRun_spec resolves root outs
  have bok : (aggRun resolves root outs).ok ≤ runs := by
    rw [hok, ← hlen]; exact List.countP_le_length _
  have bfound : (aggRun resolves root outs).found ≤ runs := by
    rw [hfound, ← hlen]; exact List.countP_le_length _
  have bvalid : (aggRun resolves root outs).valid ≤ runs := by
    rw [hvalid, ← hlen]; exact List.countP_le_length _
  exact ⟨pct_spec runs _ hruns bok, pct_spec runs _ hruns bfound, pct_spec runs _ hruns bvalid⟩

/-- C10: a `DefinitionResult` built by `definition` has `found → ok` and
"some returned location validates → found"; consequently, after every
outcome of a server is folded into its bucket, the counters satisfy
`valid ≤ found ≤ ok`. -/
theorem c10_valid_le_found_le_ok (resolves : String → Bool) (root : String) :
    (∀ (ro : ReqOutcome) (dt : ℚ),
        ((definition ro dt).found = true → (definition ro dt).ok = true)
        ∧ (anyValidLoc resolves root (definition ro dt).locations = true
            → (definition ro dt).found = true))
    ∧ (∀ outs : List RunOutcome,
        (∀ res : DefinitionResult, RunOutcome.result res ∈ outs →
            (res.found = true → res.ok = true)
            ∧ (anyValidLoc resolves root res.locations = true → res.found = true)) →
        (aggRun resolves root outs).valid ≤ (aggRun resolves root outs).found
        ∧ (aggRun resolves root outs).found ≤ (aggRun resolves root outs).ok) := by
  constructor
  · intro ro dt
    cases ro with
    | response result =>
        refine ⟨fun _ => rfl, fun hv => ?_⟩
        have hne : parse_definition_result result ≠ [] := by
          intro he
          rw [show (definition (ReqOutcome.response result) dt).locations
              = parse_definition_result result from rfl, he] at hv
          simp [anyValidLoc] at hv
        show (!(parse_definition_result result).isEmpty) = true
        simp [List.isEmpty_iff, hne]
    | failure msg =>
        refine ⟨fun h => absurd h (by simp [definition]), fun hv => ?_⟩
        simp [definition, anyValidLoc] at hv
  · intro outs hres
    obtain ⟨hok, hfound, hvalid, -, -⟩ := aggRun_spec resolves root outs
    constructor
    · rw [hvalid, hfound]
      refine countP_le_countP_of_imp _ _ _ ?_
      intro o ho hp
      cases o with
      | result res =>
          exact (hres res ho).2 (by simpa [isValidResult] using hp)
      | exc m => simp [isValidResult] at hp
    · rw [hfound, hok]
      refine countP_le_countP_of_imp _ _ _ ?_
      intro o ho hp
      cases o with
      | result res =>
          exact (hres res ho).1 (by simpa [isFoundResult] using hp)
      | exc m => simp [isFoundResult] at hp

/-- `isEmpty` detects exactly the empty list. -/
theorem isEmpty_eq_true_iff {α : Type} (l : List α) : l.isEmpty = true ↔ l = [] := by
  cases l <;> simp

/-- Membership in a banned-guarded singleton yields an unbanned token. -/
theorem mem_guarded_singleton {tok kind : String} {ln col : Nat} {o : AstOccurrence}
    (ho : o ∈ (if bannedIdentifiers.contains tok then ([] : List AstOccurrence)
               else [{ line_1b := ln, col_0b := col, token := tok, kind := kind }])) :
    bannedIdentifiers.contains o.token = false := by
  by_cases hb : bannedIdentifiers.contains tok = true
  · rw [if_pos hb] at ho
    exact absurd ho (List.not_mem_nil o)
  · rw [if_neg hb] at ho
    have heq : o = { line_1b := ln, col_0b := col, token := tok, kind := kind } :=
      List.mem_singleton.mp ho
    rw [heq]
    cases hcn : bannedIdentifiers.contains tok with
    | false => rfl
    | true => exact absurd hcn hb

/-- C2: a configured checker whose command does not resolve is recorded
with the fixed unavailable metrics (`ok=False`, the fixed message, no
latency block), never appears among the checkers handed to the joint
benchmark invocation (so it is skipped, not started), while every
available configured checker is handed to it. -/
theorem c2_unavailable_checker_recorded_and_skipped (whichOk : String → Bool)
    (runTogether : List (String × String) → List (String × CheckerMetrics))
    (type_checkers : List String) (c : String)
    (hmem : c ∈ type_checkers) (hnone : find_type_checker_command whichOk c = none) :
    (c, unavailable_metrics) ∈ run_benchmark_for_package whichOk runTogether type_checkers
    ∧ unavailable_metrics.ok = false
    ∧ unavailable_metrics.error = some "Type checker not installed"
    ∧ unavailable_metrics.latency_ms = none
    ∧ (∀ cmd : String, (c, cmd) ∉ available_checkers whichOk type_checkers)
    ∧ (∀ c2 cmd2 : String, c2 ∈ type_checkers →
        find_type_checker_command whichOk c2 = some cmd2 →
        (c2, cmd2) ∈ available_checkers whichOk type_checkers) := by
  have hrec : (c, unavailable_metrics) ∈ unavailable_records whichOk type_checkers :=
    List.mem_filterMap.mpr ⟨c, hmem, by simp [hnone]⟩
  refine ⟨?_, rfl, rfl, rfl, ?_, ?_⟩
  · unfold run_benchmark_for_package
    by_cases he : (available_checkers whichOk type_checkers).isEmpty = true
    · simp only [he, if_true]
      exact hrec
    · simp only [he, if_false]
      exact List.mem_append_left _ hrec
  · intro cmd hmem2
    obtain ⟨c2, hc2mem, hc2⟩ := List.mem_filterMap.mp hmem2
    cases hf : find_type_checker_command whichOk c2 with
    | none => rw [hf] at hc2; simp at hc2
    | some cmd2 =>
        rw [hf] at hc2
        simp only [Option.map_some', Option.some.injEq, Prod.mk.injEq] at hc2
        rw [hc2.1] at hf
        rw [hnone] at hf
        exact Option.noConfusion hf
  · intro c2 cmd2 h2mem hf
    exact List.mem_filterMap.mpr ⟨c2, h2mem, by rw [hf]; rfl⟩

/-- C8: whenever any candidate carries an `imported_*` kind the pool is
exactly the `imported_*` sub-list, otherwise the pool is the full
candidate list. -/
theorem c8_imported_bias (candidates : List Candidate) :
    (candidates.any (fun c => preferredKinds.contains c.kind) = true →
        pickPool candidates = candidates.filter (fun c => preferredKinds.contains c.kind))
    ∧ (candidates.any (fun c => preferredKinds.contains c.kind) = false →
        pickPool candidates = candidates) := by
  constructor
  · intro h
    obtain ⟨x, hx, hpx⟩ := List.any_eq_true.mp h
    have hne : candidates.filter (fun c => preferredKinds.contains c.kind) ≠ [] := by
      intro hnil
      have hxf : x ∈ candidates.filter (fun c => preferredKinds.contains c.kind) :=
        List.mem_filter.mpr ⟨hx, hpx⟩
      rw [hnil] at hxf
      exact absurd hxf (List.not_mem_nil x)
    simp only [pickPool]
    rw [if_neg (fun hie => hne ((isEmpty_eq_true_iff _).mp hie))]
  · intro h
    have hnil : candidates.filter (fun c => preferredKinds.contains c.kind) = [] := by
      cases hfe : candidates.filter (fun c => preferredKinds.contains c.kind) with
      | nil => rfl
      | cons x xs =>
          have hxmem : x ∈ candidates.filter (fun c => preferredKinds.contains c.kind) := by
            rw [hfe]; exact List.mem_cons_self x xs
          have hpair := List.mem_filter.mp hxmem
          have hany : candidates.any (fun c => preferredKinds.contains c.kind) = true :=
            List.any_eq_true.mpr ⟨x, hpair.1, hpair.2⟩
          rw [h] at hany
          exact absurd hany (by simp)
    simp only [pickPool]
    rw [hnil]
    rw [if_pos ((isEmpty_eq_true_iff ([] : List Candidate)).mpr rfl)]

/-- C9: the whole case-selection pipeline is a function of the PRNG draw
stream (itself a function of the seed) and the enumerated tree, so two
invocations with the same seed over the same unmodified tree (same
files, contents and enumeration order) select identical case
sequences. -/
theorem c9_same_seed_same_cases (pathToUri : String → String)
    (seedStream : Int → Nat → Nat) (seed1 seed2 : Int)
    (tree1 tree2 : List FileEntry) (runs : Nat)
    (hseed : seed1 = seed2) (htree : tree1 = tree2) :
    benchmarkCases pathToUri tree1 (seedStream seed1) runs 0
      = benchmarkCases pathToUri tree2 (seedStream seed2) runs 0 := by
  subst hseed
  subst htree
  rfl

/-- No callee occurrence carries a banned token. -/
theorem callOcc_token_not_banned (imported modules : List String) (e : PyExpr) :
    ∀ o ∈ callOcc imported modules e, bannedIdentifiers.contains o.token = false := by
  cases e with
  | name id ln col =>
      intro o ho
      simp only [callOcc] at ho
      exact mem_guarded_singleton ho
  | attributeExpr v attr ln col =>
      intro o ho
      simp only [callOcc] at ho
      exact mem_guarded_singleton ho
  | call f args ln col => intro o ho; simp [callOcc] at ho
  | constant ln col => intro o ho; simp [callOcc] at ho

mutual
/-- No visited expression occurrence carries a banned token. -/
theorem visitExpr_token_not_banned (imported modules : List String) (e : PyExpr) :
    ∀ o ∈ visitExpr imported modules e, bannedIdentifiers.contains o.token = false := by
  cases e with
  | name id ln col =>
      intro o ho
      simp only [visitExpr] at ho
      exact mem_guarded_singleton ho
  | attributeExpr v attr ln col =>
      intro o ho
      simp only [visitExpr] at ho
      rcases List.mem_append.mp ho with hoL | hoR
      · exact mem_guarded_singleton hoL
      · exact visitExpr_token_not_banned imported modules v o hoR
  | call f args ln col =>
      intro o ho
      simp only [visitExpr] at ho
      rcases List.mem_append.mp ho with hoL | hoR
      · rcases List.mem_append.mp hoL with hoC | hoF
        · exact callOcc_token_not_banned imported modules f o hoC
        · exact visitExpr_token_not_banned imported modules f o hoF
      · exact visitExprList_token_not_banned imported modules args o hoR
  | constant ln col => intro o ho; simp [visitExpr] at ho

/-- No occurrence from an argument list carries a banned token. -/
theorem visitExprList_token_not_banned (imported modules : List String) (l : PyExprList) :
    ∀ o ∈ visitExprList imported modules l, bannedIdentifiers.contains o.token = false := by
  cases l with
  | nil => intro o ho; simp [visitExprList] at ho
  | cons e rest =>
      intro o ho
      simp only [visitExprList] at ho
      rcases List.mem_append.mp ho with hoL | hoR
      · exact visitExpr_token_not_banned imported modules e o hoL
      · exact visitExprList_token_not_banned imported modules rest o hoR
end

/-- No collected AST occurrence carries a banned token. -/
theorem collect_token_not_banned (m : List PyStmt) :
    ∀ o ∈ collect_ast_occurrences m, bannedIdentifiers.contains o.token = false := by
  intro o ho
  unfold collect_ast_occurrences at ho
  simp only [List.mem_flatMap] at ho
  obtain ⟨s, hs, hos⟩ := ho
  cases s with
  | importStmt a => simp at hos
  | importFrom a => simp at hos
  | exprStmt e => exact visitExpr_token_not_banned _ _ e o hos

/-- No regex-fallback candidate carries a banned token. -/
theorem regexFallback_token_not_banned (lines : List (List Char)) :
    ∀ c ∈ regexFallback lines, bannedIdentifiers.contains c.tok = false := by
  intro c hc
  unfold regexFallback at hc
  simp only [List.mem_flatMap] at hc
  obtain ⟨p, hp, hcp⟩ := hc
  simp only [List.mem_filterMap] at hcp
  obtain ⟨m, hm, hmc⟩ := hcp
  cases hb : bannedIdentifiers.contains m.2 with
  | true =>
      rw [if_pos hb] at hmc
      exact Option.noConfusion hmc
  | false =>
      rw [if_neg (fun hcc => Bool.false_ne_true (hb ▸ hcc))] at hmc
      obtain rfl := Option.some.inj hmc
      exact hb

/-- C3 counterexample: on the file `print(self.s)` the sampler's
candidate pool contains the tuple `(0, 6, "self", "attr")` — the AST
occurrence for the attribute `s` is re-anchored by `line.find("s")` to
column 6 and re-extracted by `_token_from_line_at` as the identifier
`self` — so the draw picking index 2 yields a `BenchmarkCase` whose
token is `self`, a member of the exclusion list. -/
theorem c3_counterexample_banned_token_selected :
    ((pick_random_identifier_case "pkg/mod.py" (fun p => p) c3Lines (some c3Module) 2).map
        (fun bc => bc.token)) = some "self"
    ∧ bannedIdentifiers.contains "self" = true := by
  exact ⟨by decide, by decide⟩

/-- C3 (amended): the exclusion list is enforced where occurrences are
collected — no AST occurrence and no regex-fallback candidate ever
carries a banned token — but not by the later per-candidate token
re-extraction of `pick_random_identifier_case`, which can substitute a
banned token (see the counterexample). -/
theorem c3_sampler_exclusion_amended :
    (∀ (m : List PyStmt) (o : AstOccurrence), o ∈ collect_ast_occurrences m →
        bannedIdentifiers.contains o.token = false)
    ∧ (∀ (lines : List (List Char)) (c : Candidate), c ∈ regexFallback lines →
        bannedIdentifiers.contains c.tok = false) :=
  ⟨fun m o ho => collect_token_not_banned m o ho,
   fun lines c hc => regexFallback_token_not_banned lines c hc⟩

/-- Witness for C2: with a probe that fails for every executable,
`pyright` (configured together with `ty`) is recorded with the fixed
unavailable metrics. -/
theorem c2_witness :
    ("pyright", unavailable_metrics)
      ∈ run_benchmark_for_package (fun _ => false) (fun _ => []) ["pyright", "ty"] :=
  (c2_unavailable_checker_recorded_and_skipped (fun _ => false) (fun _ => [])
      ["pyright", "ty"] "pyright" (by decide) (by decide)).1

/-- Witness for the amended C3 theorem: the module consisting of the
single statement `foo` yields the occurrence `(1, 0, "foo", "name")`,
whose token is not banned. -/
theorem c3_witness :
    bannedIdentifiers.contains
      (({ line_1b := 1, col_0b := 0, token := "foo", kind := "name" } : AstOccurrence).token)
      = false :=
  c3_sampler_exclusion_amended.1 [PyStmt.exprStmt (PyExpr.name "foo" 1 0)]
    { line_1b := 1, col_0b := 0, token := "foo", kind := "name" } (by decide)

/-- Witness for C6: one ok run with a 7 ms sample; against the sorted
permutation `[7]`, `p50` is the entry at the truncated index. -/
theorem c6_witness :
    (latencySummary (aggRun (fun _ => true) "/r" c6WitnessOuts).latencies_ms).p50
      = ([(7 : ℚ)])[(([(7 : ℚ)]).length * 50) / 100]? := by
  have hperm : (okLatencies c6WitnessOuts).Perm [(7 : ℚ)] := List.Perm.refl _
  have hsort : ([(7 : ℚ)]).Sorted (fun a b => a ≤ b) := List.sorted_singleton _
  exact ((c6_latency_stats_over_ok_samples (fun _ => true) "/r" c6WitnessOuts).2.2.2.2.2
    [(7 : ℚ)] hperm hsort).1

/-- Witness for C7: a single run that ends in a worker exception, with
`runs = 1`. -/
theorem c7_witness :
    (summarize 1 (aggRun (fun _ => true) "/r" [RunOutcome.exc "spawn failed"])).ok_pct
      = 100 * ((aggRun (fun _ => true) "/r" [RunOutcome.exc "spawn failed"]).ok : ℚ)
          / ((1 : ℕ) : ℚ) :=
  ((c7_percentages_bounds (fun _ => true) "/r" [RunOutcome.exc "spawn failed"] 1 rfl
      (by decide)).1).1

/-- Witness for C8: a pool holding one `imported_name` candidate and one
plain candidate restricts the draw to the imported sub-list. -/
theorem c8_witness :
    pickPool [{ line0 := 0, col0 := 0, tok := "os", kind := "imported_name" },
              { line0 := 0, col0 := 4, tok := "x", kind := "name" }]
      = List.filter (fun c => preferredKinds.contains c.kind)
          [{ line0 := 0, col0 := 0, tok := "os", kind := "imported_name" },
           { line0 := 0, col0 := 4, tok := "x", kind := "name" }] :=
  (c8_imported_bias _).1 (by decide)

/-- Witness for C9: two invocations at seed 5 over an empty tree. -/
theorem c9_witness :
    benchmarkCases (fun p => p) ([] : List FileEntry) ((fun _ _ => 0) (5 : Int)) 2 0
      = benchmarkCases (fun p => p) ([] : List FileEntry) ((fun _ _ => 0) (5 : Int)) 2 0 :=
  c9_same_seed_same_cases (fun p => p) (fun _ _ => 0) 5 5 [] [] 2 rfl rfl

/-- Witness for C10: a successful empty response plus a worker
exception keep `valid ≤ found` in the bucket. -/
theorem c10_witness :
    (aggRun (fun _ => true) "/r" c10WitnessOuts).valid
      ≤ (aggRun (fun _ => true) "/r" c10WitnessOuts).found :=
  ((c10_valid_le_found_le_ok (fun _ => true) "/r").2 c10WitnessOuts (by
    intro res hmem
    have hres : res = definition (ReqOutcome.response JVal.null) 2 := by
      simp only [c10WitnessOuts, List.mem_cons, List.mem_singleton] at hmem
      rcases hmem with h | h
      · exact RunOutcome.result.inj h
      · exact absurd h (by simp)
    rw [hres]
    exact (c10_valid_le_found_le_ok (fun _ => true) "/r").1 (ReqOutcome.response JVal.null) 2)).1

end LspBench
